import Mathlib

/-!
Verification of the piano-visualizer coordinate/layout engine and gesture
pipeline, as a shallow embedding of the TypeScript sources.

Modelling conventions:
* JavaScript numbers are modelled as rationals (`ℚ`) except in
  `GestureAnimator`, whose easing step uses `Math.pow` with a fractional
  exponent and is therefore modelled over the reals (`ℝ`).
* In `ℚ`, division by zero yields 0 where JavaScript yields ±Infinity or NaN.
  Every theorem below that depends on a quotient carries hypotheses (such as
  `0 < width`) under which the two semantics agree.
* `Math.round x` is `⌊x + 1/2⌋` (JavaScript rounds halves toward +∞).
* `midi % 12` and `Math.floor(midi / 12)` are `Int.emod`/`Int.fdiv`; these
  agree with JavaScript for the non-negative note numbers all theorems use.
* Colors and press identifiers are opaque strings in the source, used only
  for (in)equality tests and truthiness; they are modelled as `ℕ`, with
  `Option ℕ` for an optional identifier (`none` = argument omitted).
* Rendering objects (pixi `Graphics`, containers, gradients) and console
  warnings are outside the model; only the state the source stores and the
  events it emits are embedded.
-/

namespace PV

/-- JavaScript `Math.round`: round to nearest, halves toward +∞. -/
def jsRound (q : ℚ) : ℤ := ⌊q + 1/2⌋

/-- JavaScript `Math.abs` on a rational. -/
def jsAbs (q : ℚ) : ℚ := if q < 0 then -q else q

theorem jsAbs_eq_abs (q : ℚ) : jsAbs q = |q| := by
  unfold jsAbs
  rcases lt_or_le q 0 with h | h
  · rw [if_pos h, abs_of_neg h]
  · rw [if_neg (not_lt.mpr h), abs_of_nonneg h]

/-! ### Pitch (src/Pitch.ts) -/

/-- Pitch value object from `Pitch.ts`: every field is a pure function of the
note number. -/
structure Pitch where
  midi : ℤ
  chroma : ℤ
  octave : ℤ
  key : ℤ
  isNatural : Bool
  deriving Repr, DecidableEq

/-- The set of natural chroma classes, `NATURAL_CHROMA` in `Pitch.ts`. -/
def naturalChroma : List ℤ := [0, 2, 4, 5, 7, 9, 11]

/-- The `Pitch` constructor: `chroma = midi % 12`, `octave = floor(midi/12)`,
`key = midi - 21`. -/
def Pitch.ofMidi (midi : ℤ) : Pitch :=
  { midi := midi
    chroma := midi % 12
    octave := midi.fdiv 12
    key := midi - 21
    isNatural := naturalChroma.contains (midi % 12) }

/-! ### Layout (src/Layout.ts) -/

/-- `PIANO_DIMENSIONS.NATURAL_KEY_WIDTH`. -/
def NATURAL_KEY_WIDTH : ℚ := 100
/-- `PIANO_DIMENSIONS.NATURAL_KEY_HEIGHT`. -/
def NATURAL_KEY_HEIGHT : ℚ := 250
/-- `MIDDLE_C_OFFSET * NATURAL_KEY_WIDTH` = 3500. -/
def DEFAULT_X_OFFSET : ℚ := 35 * NATURAL_KEY_WIDTH
/-- Accidental key height, `NATURAL_KEY_HEIGHT * 0.65`. -/
def ACCIDENTAL_KEY_HEIGHT : ℚ := NATURAL_KEY_HEIGHT * (65 / 100)
/-- Accidental key width, `NATURAL_KEY_WIDTH * 0.5`. -/
def ACCIDENTAL_KEY_WIDTH : ℚ := NATURAL_KEY_WIDTH * (5 / 10)
/-- Octave width, `NATURAL_KEY_WIDTH * 7`. -/
def OCTAVE_WIDTH : ℚ := NATURAL_KEY_WIDTH * 7

/-- `CHROMA_X_POSITIONS` from `Layout.ts`. -/
def chromaXPositions : List ℚ :=
  [0, 75, 100, 175, 200, 300, 375, 400, 475, 500, 575, 600]

/-- Indexing `CHROMA_X_POSITIONS[c]`; defined (as 0) outside 0..11, where the
source would produce NaN geometry for a negative note number. No theorem
evaluates it there. -/
def chromaX (c : ℤ) : ℚ := chromaXPositions.getD c.toNat 0

/-- The unscaled x position of a note on the full keyboard:
`CHROMA_X_POSITIONS[pitch.chroma] + pitch.octave * OCTAVE_WIDTH`, the
expression `getKeyElement`, `getRollElement`, `xToCenterMidi` and
`centerMidiToX` all share. -/
def noteX (midi : ℤ) : ℚ :=
  chromaX (Pitch.ofMidi midi).chroma + ((Pitch.ofMidi midi).octave : ℚ) * OCTAVE_WIDTH

/-- The breakpoint table `BREAKPOINT_RANGES` with the final fallback 16, as a
function of the width (`getBreakpointRange` reads `this.width`). -/
def bpRange (width : ℚ) : ℚ :=
  if width < 700 then 8 else if width < 1200 then 12 else if width < 1600 then 16 else 16

/-- The `Range` record of `Layout.ts` (`centerMidi` held as an integer: every
write the model admits stores an integer, see `Layout.setCenterMidi`). -/
structure Range where
  centerMidi : ℤ
  visibleKeys : ℚ
  deriving Repr, DecidableEq

/-- The `Config` record of `Layout.ts`. -/
structure Config where
  width : ℚ
  height : ℚ
  pianoHeight : ℚ
  deriving Repr, DecidableEq

/-- The private state of the `Layout` class. -/
structure Layout where
  pianoHeight : ℚ
  height : ℚ
  widthFactor : ℚ
  heightFactor : ℚ
  width : ℚ
  x : ℚ
  range : Range
  deriving Repr, DecidableEq

/-- Geometry returned by `getKeyElement`. -/
structure KeyElement where
  x : ℚ
  width : ℚ
  height : ℚ
  deriving Repr, DecidableEq

namespace Layout

/-- `getBreakpointRange()`. -/
def getBreakpointRange (s : Layout) : ℚ := bpRange s.width

/-- `setVisibleKeys(visibleKeys)`: stores the count unclamped and derives the
width factor from it. -/
def setVisibleKeys (s : Layout) (visibleKeys : ℚ) : Layout :=
  let screenKeys := s.width / NATURAL_KEY_WIDTH
  { s with range := { s.range with visibleKeys := visibleKeys }
           widthFactor := screenKeys / visibleKeys }

/-- `updatePianoHeight(pianoHeight)`. -/
def updatePianoHeight (s : Layout) (pianoHeight : ℚ) : Layout :=
  { s with pianoHeight := pianoHeight
           heightFactor := pianoHeight / NATURAL_KEY_HEIGHT }

/-- The `Layout` constructor: fields are initialised, `updatePianoHeight`
runs, then the range is seeded from the breakpoint table and
`setVisibleKeys` derives the width factor. (The TS `range` field is assigned
exactly once before use; the seed value `⟨60, bp⟩` mirrors that assignment.) -/
def init (c : Config) : Layout :=
  let s0 : Layout :=
    { pianoHeight := c.pianoHeight, height := c.height, widthFactor := 1
      heightFactor := 1, width := c.width, x := 0, range := ⟨60, 0⟩ }
  let s1 := s0.updatePianoHeight c.pianoHeight
  let bp := s1.getBreakpointRange
  let s2 := { s1 with range := ⟨60, bp⟩ }
  s2.setVisibleKeys bp

/-- `setWidth(width)`: compares the old width's breakpoint default with the
new width's; keeps the current count when they agree, else snaps to the new
default. -/
def setWidth (s : Layout) (width : ℚ) : Layout :=
  let lastRangeFromWidth := s.getBreakpointRange
  let s1 := { s with width := width }
  let newRangeFromWidth := s1.getBreakpointRange
  let targetRange :=
    if lastRangeFromWidth = newRangeFromWidth then s1.range.visibleKeys
    else newRangeFromWidth
  s1.setVisibleKeys targetRange

/-- `setHeight(height)`. -/
def setHeight (s : Layout) (height : ℚ) : Layout := { s with height := height }

/-- `getKeyElement(midi)`. -/
def getKeyElement (s : Layout) (midi : ℤ) : KeyElement :=
  let pitch := Pitch.ofMidi midi
  let x := chromaX pitch.chroma + (pitch.octave : ℚ) * OCTAVE_WIDTH
  let width := if pitch.isNatural then NATURAL_KEY_WIDTH else ACCIDENTAL_KEY_WIDTH
  let height := if pitch.isNatural then NATURAL_KEY_HEIGHT else ACCIDENTAL_KEY_HEIGHT
  { x := (x - DEFAULT_X_OFFSET) * s.widthFactor
    width := width * s.widthFactor
    height := height * s.heightFactor }

/-- `getClampedX(x, forceAllowPanning)`: centers the keyboard when it fits in
the viewport (unless panning is forced), otherwise bounds `x` so the keyboard
edges cannot separate from the viewport edges. -/
def getClampedX (s : Layout) (x : ℚ) (forceAllowPanning : Bool) : ℚ :=
  let firstKeyX := (s.getKeyElement 21).x
  let lastKey := s.getKeyElement 108
  let lastKeyRight := lastKey.x + lastKey.width
  let pianoWidth := lastKeyRight - firstKeyX
  if pianoWidth ≤ s.width ∧ forceAllowPanning = false then
    (s.width - pianoWidth) / 2 - firstKeyX
  else
    let minX := min 0 (s.width - lastKeyRight)
    let maxX := max 0 (-firstKeyX)
    max minX (min maxX x)

/-- `setX(x)` stores `getClampedX(x)` (with the default `forceAllowPanning =
false`). -/
def setX (s : Layout) (x : ℚ) : Layout := { s with x := s.getClampedX x false }

/-- `getQuantizedX(x)`: round to the nearest whole-key boundary at the current
width factor. -/
def getQuantizedX (s : Layout) (x : ℚ) : ℚ :=
  let keyWidth := NATURAL_KEY_WIDTH * s.widthFactor
  (jsRound (x / keyWidth) : ℚ) * keyWidth

/-- `getClampedWidthFactor(widthFactor)`: clamp so that the implied
visible-keys count lies in [5, 52]. -/
def getClampedWidthFactor (s : Layout) (widthFactor : ℚ) : ℚ :=
  let screenKeys := s.width / NATURAL_KEY_WIDTH
  let visibleKeys := screenKeys / widthFactor
  let clampedVisibleKeys := max 5 (min 52 visibleKeys)
  screenKeys / clampedVisibleKeys

/-- `getQuantizedWidthFactor(widthFactor)`: the factor at which a whole number
of natural keys fits the width. -/
def getQuantizedWidthFactor (s : Layout) (widthFactor : ℚ) : ℚ :=
  let naturalKeysVisible := s.width / (NATURAL_KEY_WIDTH * widthFactor)
  let quantizedNaturalKeys := jsRound naturalKeysVisible
  s.width / (NATURAL_KEY_WIDTH * (quantizedNaturalKeys : ℚ))

/-- `setWidthFactor(widthFactor)`: clamp, no-op when the clamp matches the
current factor, otherwise apply with zoom-about-screen-center and re-clamp
the pan. -/
def setWidthFactor (s : Layout) (widthFactor : ℚ) : Layout :=
  let clampedFactor := s.getClampedWidthFactor widthFactor
  if clampedFactor = s.widthFactor then s
  else
    let screenCenterX := s.width / 2
    let worldCenterX := screenCenterX - s.x
    let oldWidthFactor := s.widthFactor
    let s1 := { s with widthFactor := clampedFactor }
    let screenKeys := s1.width / NATURAL_KEY_WIDTH
    let s2 := { s1 with range := { s1.range with visibleKeys := screenKeys / clampedFactor } }
    let scaledWorldCenterX := worldCenterX * (clampedFactor / oldWidthFactor)
    let newX := screenCenterX - scaledWorldCenterX
    s2.setX newX

/-- `setCenterMidi(midi)`: rejected (state unchanged) outside [21, 108]. -/
def setCenterMidi (s : Layout) (midi : ℤ) : Layout :=
  if midi < 21 ∨ midi > 108 then s
  else { s with range := { s.range with centerMidi := midi } }

/-- `centerMidiToX(midi)`: the pan offset that centers the given note. -/
def centerMidiToX (s : Layout) (midi : ℤ) : ℚ :=
  let scaledNoteX := (noteX midi - DEFAULT_X_OFFSET) * s.widthFactor
  let screenCenterX := s.width / 2
  scaledNoteX - screenCenterX

/-- One step of the nearest-note scan in `xToCenterMidi`: keep the candidate
when its distance is strictly smaller than the best so far (`none` plays the
role of the initial `Infinity`). -/
def scanStep (offsetX : ℚ) (st : ℤ × Option ℚ) (midi : ℤ) : ℤ × Option ℚ :=
  let distance := jsAbs (noteX midi - offsetX)
  match st.2 with
  | none => (midi, some distance)
  | some closest => if distance < closest then (midi, some distance) else st

/-- The `for (let midi = 21; midi <= 108; midi++)` scan of `xToCenterMidi`,
starting from the source's `closestMidi = 60`, `closestDistance = Infinity`. -/
def scanClosest (offsetX : ℚ) : ℤ :=
  (((List.range 88).map (fun k : ℕ => 21 + (k : ℤ))).foldl (scanStep offsetX) (60, none)).1

/-- `xToCenterMidi(x)`: invert `centerMidiToX` by a nearest-match scan over
the 88-key range. -/
def xToCenterMidi (s : Layout) (x : ℚ) : ℤ :=
  let screenCenterX := s.width / 2
  let offsetX := (x + screenCenterX) / s.widthFactor + DEFAULT_X_OFFSET
  scanClosest offsetX

/-- `setRange(centerMidi, visibleKeys)`: validates `centerMidi ∈ [21,108]` and
`visibleKeys ∈ [4,88]`, then stores both, derives the width factor and
re-centers the pan. -/
def setRange (s : Layout) (centerMidi : ℤ) (visibleKeys : ℚ) : Layout :=
  if centerMidi < 21 ∨ centerMidi > 108 then s
  else if visibleKeys < 4 ∨ visibleKeys > 88 then s
  else
    let s1 := { s with range := { centerMidi := centerMidi, visibleKeys := visibleKeys } }
    let s2 := s1.setVisibleKeys visibleKeys
    let targetX := s2.centerMidiToX centerMidi
    s2.setX targetX

end Layout

/-! ### GestureAnimator (src/Visualization/GestureAnimator.ts)

Modelled over `ℝ` because the easing step takes `Math.pow` with the
fractional default exponent 1.5. The observer callback `onPositionChange` is
modelled as the `Option ℝ` component of each operation's result: `some v`
means the observer was notified with `v`, `none` that it was not called. -/

/-- The `EasingConfig` record (field name `deltaPowtValue` as in the source). -/
structure EasingConfig where
  deltaPowtValue : ℝ
  deltaDivisor : ℝ

/-- The constructor defaults: `p = 1.5`, `d = 600`. -/
noncomputable def defaultEasing : EasingConfig := ⟨3/2, 600⟩

/-- The single-axis `AnimationTarget` record. -/
structure AnimX where
  current : ℝ
  target : ℝ

namespace GestureAnimator

/-- `setPosition(x)`: force `current` and notify; `target` untouched. -/
def setPosition (s : AnimX) (x : ℝ) : AnimX × Option ℝ :=
  ({ s with current := x }, some x)

/-- `setTarget(x)`: only the destination changes; no notification. -/
def setTarget (s : AnimX) (x : ℝ) : AnimX :=
  { s with target := x }

/-- `getEasingStep(deltaX, deltaMS)` =
`max(deltaMS * |deltaX|^p / d, 1)`. -/
noncomputable def getEasingStep (cfg : EasingConfig) (deltaX deltaMS : ℝ) : ℝ :=
  max (deltaMS * |deltaX| ^ cfg.deltaPowtValue / cfg.deltaDivisor) 1

/-- `animate(ticker)`: no-op at the target; snap-and-notify within 1 pixel;
otherwise step toward the target by the easing step and notify. -/
noncomputable def animate (cfg : EasingConfig) (s : AnimX) (deltaMS : ℝ) :
    AnimX × Option ℝ :=
  let deltaX := s.target - s.current
  if deltaX = 0 then (s, none)
  else if |deltaX| ≤ 1 then ({ s with current := s.target }, some s.target)
  else
    let easingStep := getEasingStep cfg deltaX deltaMS
    let newCurrent :=
      if deltaX ≥ 1 then s.current + easingStep
      else if deltaX ≤ -1 then s.current - easingStep
      else s.current
    ({ s with current := newCurrent }, some newCurrent)

end GestureAnimator

/-! ### Association-list model of a JavaScript `Map`

`Map.set` keeps an existing key's insertion position and appends a new key at
the end; `get` returns the value of the (unique) matching key; `delete`
removes it. -/

/-- `map.get k`. -/
def mapLookup {α : Type} (m : List (ℤ × α)) (k : ℤ) : Option α :=
  match m with
  | [] => none
  | (k', v') :: rest => if k' = k then some v' else mapLookup rest k

/-- `map.set k v`. -/
def mapSet {α : Type} (m : List (ℤ × α)) (k : ℤ) (v : α) : List (ℤ × α) :=
  match m with
  | [] => [(k, v)]
  | (k', v') :: rest => if k' = k then (k, v) :: rest else (k', v') :: mapSet rest k v

/-- `map.delete k`. -/
def mapDelete {α : Type} (m : List (ℤ × α)) (k : ℤ) : List (ℤ × α) :=
  match m with
  | [] => []
  | (k', v') :: rest => if k' = k then rest else (k', v') :: mapDelete rest k

/-! ### Piano active-key tracker (src/Piano/Piano.ts) -/

/-- The `ActiveKey` record: a color, the note, and an optional identifier
(`none` models an omitted — or falsy — identifier argument). -/
structure ActiveKey where
  color : ℕ
  midi : ℤ
  identifier : Option ℕ
  deriving Repr, DecidableEq

/-- The `activeKeys` map of the `Piano` class. -/
abbrev PianoState : Type := List (ℤ × List ActiveKey)

/-- `MIDI_RANGE` check `isValidMidi(midi)`: warns and returns false outside
the 88-key window [21, 108]. -/
def isValidMidi (midi : ℤ) : Bool :=
  if midi < 21 ∨ midi > 108 then false else true

namespace Piano

/-- `keyDown(midi, color, identifier)`: rejected for an invalid note,
otherwise appends an entry to the note's ordered list (creating it). -/
def keyDown (s : PianoState) (midi : ℤ) (color : ℕ) (identifier : Option ℕ) :
    PianoState :=
  if isValidMidi midi = false then s
  else
    let entries := (mapLookup s midi).getD []
    mapSet s midi (entries ++ [⟨color, midi, identifier⟩])

/-- `keyUp(midi, identifier)`: rejected for an invalid note; no-op when the
note has no entry; with no identifier, deletes the key when a single entry
was held and otherwise pops the most recent entry; with an identifier,
removes every matching entry and deletes the key when none remain. -/
def keyUp (s : PianoState) (midi : ℤ) (identifier : Option ℕ) : PianoState :=
  if isValidMidi midi = false then s
  else
    match mapLookup s midi with
    | none => s
    | some existingEntries =>
      match identifier with
      | none =>
        if existingEntries.length = 1 then mapDelete s midi
        else mapSet s midi existingEntries.dropLast
      | some id =>
        let newActiveKeys := existingEntries.filter (fun a => a.identifier ≠ some id)
        if newActiveKeys.length = 0 then mapDelete s midi
        else mapSet s midi newActiveKeys

end Piano

/-! ### PianoRoll block store (src/PianoRoll.ts) -/

/-- The `Block` record (its `graphics` handle is rendering-only and not part
of the modelled state). -/
structure Block where
  isActive : Bool
  y : ℚ
  height : ℚ
  midi : ℤ
  color : ℕ
  identifier : Option ℕ
  deriving Repr, DecidableEq

/-- The `blocks` map of the `PianoRoll` class. -/
abbrev RollState : Type := List (ℤ × List Block)

namespace PianoRoll

/-- The block `startNote` pushes: active, at `y = 0` with height 0. -/
def mkBlock (midi : ℤ) (color : ℕ) (identifier : Option ℕ) : Block :=
  ⟨true, 0, 0, midi, color, identifier⟩

/-- `startNote(midi, color, identifier)`: pushes a fresh active block — with
no range validation on `midi`. -/
def startNote (s : RollState) (midi : ℤ) (color : ℕ) (identifier : Option ℕ) :
    RollState :=
  let existingEntries := (mapLookup s midi).getD []
  mapSet s midi (existingEntries ++ [mkBlock midi color identifier])

/-- Deactivate the first active block (the anonymous branch of `endNote`,
whose loop returns at the first hit). -/
def endFirstActive (blocks : List Block) : List Block :=
  match blocks with
  | [] => []
  | b :: rest =>
    if b.isActive then { b with isActive := false } :: rest
    else b :: endFirstActive rest

/-- `endNote(midi, identifier)`: no-op when the note has no blocks; with an
identifier, deactivates every matching block; without, deactivates the first
active block. No range validation on `midi`. -/
def endNote (s : RollState) (midi : ℤ) (identifier : Option ℕ) : RollState :=
  match mapLookup s midi with
  | none => s
  | some blocks =>
    if blocks.length = 0 then s
    else
      match identifier with
      | some id =>
        mapSet s midi
          (blocks.map fun b => if b.identifier = some id then { b with isActive := false } else b)
      | none => mapSet s midi (endFirstActive blocks)

end PianoRoll

/-! ### Visualization facade (src/Visualization/Visualization.ts) -/

/-- The note-tracking state the facade fans out to: the roll's block store
and the piano's active-key tracker. -/
structure VizState where
  roll : RollState
  piano : PianoState
  deriving DecidableEq

namespace Visualization

/-- `startNote(midi, color, identifier)` forwards to `pianoRoll.startNote`
then `piano.keyDown`. -/
def startNote (s : VizState) (midi : ℤ) (color : ℕ) (identifier : Option ℕ) :
    VizState :=
  { roll := PianoRoll.startNote s.roll midi color identifier
    piano := Piano.keyDown s.piano midi color identifier }

/-- `endNote(midi, identifier)` forwards to `pianoRoll.endNote` then
`piano.keyUp`. -/
def endNote (s : VizState) (midi : ℤ) (identifier : Option ℕ) : VizState :=
  { roll := PianoRoll.endNote s.roll midi identifier
    piano := Piano.keyUp s.piano midi identifier }

end Visualization

/-! ### PianoController key-input streams (src/Piano/PianoController.ts) -/

/-- A key-down or key-up emission (`onKeyDown`/`onKeyUp` callback call). -/
inductive KeyEvent where
  | down (midi : ℤ)
  | up (midi : ℤ)
  deriving Repr, DecidableEq

/-- The per-stream state of `PianoController`: the mouse stream's button flag
and held note, and each touch identifier's held note. -/
structure PCState where
  isMouseDown : Bool
  mouseMidi : Option ℤ
  touchMidiById : List (ℤ × ℤ)
  deriving Repr, DecidableEq

namespace PianoController

/-- The `mouseenter` handler of the key `midi`: while the button is down and
a different note is held, emits key-up(old) then key-down(new) in one
handler. -/
def mouseEnter (st : PCState) (midi : ℤ) : PCState × List KeyEvent :=
  if st.isMouseDown = false ∨ st.mouseMidi = some midi then (st, [])
  else
    let ups := match st.mouseMidi with
      | some old => [KeyEvent.up old]
      | none => []
    ({ st with mouseMidi := some midi }, ups ++ [KeyEvent.down midi])

/-- The `touchmove` handler of the key `midi` for a touch `pointerId`: when
that contact holds a different note, emits key-up(old) then key-down(new)
and re-points the contact at `midi`. -/
def touchMove (st : PCState) (pointerId midi : ℤ) : PCState × List KeyEvent :=
  let prevMidi := mapLookup st.touchMidiById pointerId
  if prevMidi = some midi then (st, [])
  else
    let ups := match prevMidi with
      | some old => [KeyEvent.up old]
      | none => []
    ({ st with touchMidiById := mapSet st.touchMidiById pointerId midi },
      ups ++ [KeyEvent.down midi])

end PianoController

/-! ### VisualizationController gesture completion
(src/Visualization/VisualizationController.ts) -/

/-- The two animation targets `completeGesture` pushes through
`onContainerTargetXChange` and `onWidthFactorTargetChange`. -/
structure GestureTargets where
  containerTargetX : ℚ
  widthFactorTarget : ℚ
  deriving Repr, DecidableEq

/-- `completeGesture(finalPosition?)`: quantize the zoom, apply it to the
layout when it differs, then quantize the pan (the current `layout.getX()`
unless a final position is passed — every call site passes none) against the
layout's now-updated key width, and push both targets. All five completion
paths (`onMouseUp`/`onMouseLeave` via `resetMouseContext`, `onTouchEnd` with
zero remaining contacts, `onWheelSettled`, `onGestureEnd`) call this one
function with no argument. -/
def completeGesture (s : Layout) (finalPosition : Option ℚ) :
    Layout × GestureTargets :=
  let currentWidthFactor := s.widthFactor
  let quantizedWidthFactor := s.getQuantizedWidthFactor currentWidthFactor
  let s1 :=
    if quantizedWidthFactor ≠ currentWidthFactor then s.setWidthFactor quantizedWidthFactor
    else s
  let currentX := finalPosition.getD s1.x
  let quantizedX := s1.getQuantizedX currentX
  (s1, ⟨quantizedX, quantizedWidthFactor⟩)

/-! ### Generic helper lemmas -/

theorem jsAbs_nonneg (q : ℚ) : 0 ≤ jsAbs q := by
  rw [jsAbs_eq_abs]; exact abs_nonneg q

theorem jsAbs_pos {q : ℚ} (h : q ≠ 0) : 0 < jsAbs q := by
  rw [jsAbs_eq_abs]; exact abs_pos.mpr h

theorem mapLookup_mapSet_self {α : Type} (m : List (ℤ × α)) (k : ℤ) (v : α) :
    mapLookup (mapSet m k v) k = some v := by
  induction m with
  | nil => simp [mapSet, mapLookup]
  | cons hd tl ih =>
    by_cases h : hd.1 = k
    · simp [mapSet, mapLookup, h]
    · simpa [mapSet, mapLookup, h] using ih

/-- A sample container configuration used by the concrete witnesses. -/
def demoConfig : Config := ⟨1200, 800, 250⟩

/-- A sample layout: width 1200 puts the breakpoint default at 16 visible
keys, so the width factor is 12/16 = 3/4. -/
def demoLayout : Layout := Layout.init demoConfig

theorem demoLayout_eq :
    demoLayout = { pianoHeight := 250, height := 800, widthFactor := 3/4
                   heightFactor := 1, width := 1200, x := 0
                   range := ⟨60, 16⟩ } := by
  unfold demoLayout demoConfig Layout.init Layout.updatePianoHeight
    Layout.getBreakpointRange Layout.setVisibleKeys bpRange
  norm_num [NATURAL_KEY_WIDTH, NATURAL_KEY_HEIGHT]

/-! ### C1: setWidth and the breakpoint policy -/

/-- C1 (amended): `setWidth` preserves the visible-keys count exactly when
the old and the new width share a breakpoint default; when the defaults
differ it snaps to the new width's default unconditionally — whether or not
the current zoom was user-set. -/
theorem setWidth_breakpoint_policy (s : Layout) (w : ℚ) :
    (bpRange s.width = bpRange w →
      (s.setWidth w).range.visibleKeys = s.range.visibleKeys) ∧
    (bpRange s.width ≠ bpRange w →
      (s.setWidth w).range.visibleKeys = bpRange w) := by
  constructor <;> intro h <;>
    simp [Layout.setWidth, Layout.setVisibleKeys, Layout.getBreakpointRange, h]

/-- C1 witness: widths 1250 and 1280 share the 16-key tier, widths 1250 and
600 do not. -/
theorem setWidth_breakpoint_policy_witness :
    (bpRange (demoLayout.setWidth 1250).width = bpRange 1280 →
      ((demoLayout.setWidth 1250).setWidth 1280).range.visibleKeys
        = (demoLayout.setWidth 1250).range.visibleKeys) ∧
    (bpRange (demoLayout.setWidth 1250).width ≠ bpRange 1280 →
      ((demoLayout.setWidth 1250).setWidth 1280).range.visibleKeys = bpRange 1280) :=
  setWidth_breakpoint_policy (demoLayout.setWidth 1250) 1280

/-- C1 counterexample: at width 800 the user zooms to 30 visible keys (not a
breakpoint default, hence not breakpoint-derived); shrinking to width 600
crosses into the 8-key tier, and the code snaps to 8 instead of preserving
the user-set 30 the claim requires. -/
theorem setWidth_userZoom_cex :
    (((Layout.init ⟨800, 600, 250⟩).setVisibleKeys 30).setWidth 600).range.visibleKeys = 8 ∧
    ¬ ((((Layout.init ⟨800, 600, 250⟩).setVisibleKeys 30).setWidth 600).range.visibleKeys = 30) := by
  norm_num [Layout.init, Layout.setWidth, Layout.setVisibleKeys,
    Layout.updatePianoHeight, Layout.getBreakpointRange, bpRange]

/-! ### C2: the visible-keys window invariant -/

/-- C2 counterexample: `setRange(60, 88)` passes the source's own [4, 88]
validation and leaves the visible-keys count at 88 — outside [5, 52] — both
as stored and as derived from the width factor. -/
theorem setRange_breaks_zoom_window_cex :
    ((Layout.init ⟨1000, 800, 250⟩).setRange 60 88).range.visibleKeys = 88 ∧
    ((Layout.init ⟨1000, 800, 250⟩).setRange 60 88).width /
      (NATURAL_KEY_WIDTH * ((Layout.init ⟨1000, 800, 250⟩).setRange 60 88).widthFactor) = 88 ∧
    ¬ ((88 : ℚ) ≤ 52) := by
  have h : (Layout.init ⟨1000, 800, 250⟩).setRange 60 88
      = ((Layout.init ⟨1000, 800, 250⟩).setRange 60 88) := rfl
  refine ⟨?_, ?_, by norm_num⟩ <;>
    norm_num [Layout.init, Layout.setRange, Layout.setVisibleKeys, Layout.setX,
      Layout.updatePianoHeight, Layout.getBreakpointRange, bpRange,
      Layout.centerMidiToX, Layout.getClampedX, Layout.getKeyElement,
      NATURAL_KEY_WIDTH, NATURAL_KEY_HEIGHT, DEFAULT_X_OFFSET, OCTAVE_WIDTH,
      ACCIDENTAL_KEY_WIDTH, ACCIDENTAL_KEY_HEIGHT, noteX, chromaX,
      chromaXPositions, Pitch.ofMidi, naturalChroma]

/-- C2 (amended): the visible-keys window [5, 52] holds after construction
and is preserved by `setWidth`, `setHeight`, `setX`, `setCenterMidi`,
`updatePianoHeight`, and (for a positive width) `setWidthFactor`; it is NOT
enforced by `setVisibleKeys` (no clamping at all) or `setRange` (which
accepts [4, 88]) — see the counterexample. -/
theorem layout_ops_preserve_zoom_window (s : Layout) (c : Config)
    (w h x ph z : ℚ) (cm : ℤ)
    (hlo : 5 ≤ s.range.visibleKeys) (hhi : s.range.visibleKeys ≤ 52) :
    (5 ≤ (Layout.init c).range.visibleKeys ∧ (Layout.init c).range.visibleKeys ≤ 52) ∧
    (5 ≤ (s.setWidth w).range.visibleKeys ∧ (s.setWidth w).range.visibleKeys ≤ 52) ∧
    (s.setHeight h).range.visibleKeys = s.range.visibleKeys ∧
    (s.setX x).range.visibleKeys = s.range.visibleKeys ∧
    (s.setCenterMidi cm).range.visibleKeys = s.range.visibleKeys ∧
    (s.updatePianoHeight ph).range.visibleKeys = s.range.visibleKeys ∧
    (0 < s.width →
      5 ≤ (s.setWidthFactor z).range.visibleKeys ∧
      (s.setWidthFactor z).range.visibleKeys ≤ 52) := by
  refine ⟨?_, ?_, ?_, ?_, ?_, ?_, ?_⟩
  · unfold Layout.init Layout.setVisibleKeys Layout.updatePianoHeight
      Layout.getBreakpointRange bpRange
    dsimp only
    split_ifs <;> norm_num
  · unfold Layout.setWidth Layout.setVisibleKeys Layout.getBreakpointRange bpRange
    dsimp only
    split_ifs <;> norm_num <;> exact ⟨hlo, hhi⟩
  · rfl
  · rfl
  · unfold Layout.setCenterMidi; split_ifs <;> rfl
  · rfl
  · intro hw
    unfold Layout.setWidthFactor
    dsimp only
    split_ifs with hc
    · exact ⟨hlo, hhi⟩
    · unfold Layout.setX
      dsimp only
      unfold Layout.getClampedWidthFactor at *
      set sk := s.width / NATURAL_KEY_WIDTH with hsk
      have hsk0 : sk ≠ 0 := by
        rw [hsk]
        unfold NATURAL_KEY_WIDTH
        positivity
      set v := sk / z with hv
      set ck := max 5 (min 52 v) with hck
      have hck5 : (5 : ℚ) ≤ ck := le_max_left _ _
      have hck52 : ck ≤ 52 := max_le (by norm_num) (min_le_left _ _)
      have hck0 : ck ≠ 0 := by positivity
      have : sk / (sk / ck) = ck := by
        rw [div_div_eq_mul_div, mul_div_assoc, mul_comm]
        exact div_mul_cancel₀ ck hsk0
      rw [this]
      exact ⟨hck5, hck52⟩

/-- C2 witness: the demo layout holds 16 visible keys, inside [5, 52]. -/
theorem layout_ops_preserve_zoom_window_witness :
    (5 ≤ (Layout.init demoConfig).range.visibleKeys ∧ (Layout.init demoConfig).range.visibleKeys ≤ 52) ∧
    (5 ≤ (demoLayout.setWidth 900).range.visibleKeys ∧ (demoLayout.setWidth 900).range.visibleKeys ≤ 52) ∧
    (demoLayout.setHeight 700).range.visibleKeys = demoLayout.range.visibleKeys ∧
    (demoLayout.setX 40).range.visibleKeys = demoLayout.range.visibleKeys ∧
    (demoLayout.setCenterMidi 72).range.visibleKeys = demoLayout.range.visibleKeys ∧
    (demoLayout.updatePianoHeight 200).range.visibleKeys = demoLayout.range.visibleKeys ∧
    (0 < demoLayout.width →
      5 ≤ (demoLayout.setWidthFactor 2).range.visibleKeys ∧
      (demoLayout.setWidthFactor 2).range.visibleKeys ≤ 52) :=
  layout_ops_preserve_zoom_window demoLayout demoConfig 900 700 40 200 2 72
    (by rw [demoLayout_eq]; norm_num) (by rw [demoLayout_eq]; norm_num)

/-! ### C4: anonymous key release -/

/-- C4 counterexample: an anonymous press (color 0) followed by an identified
press (color 1, identifier 5); `keyUp` with the identifier omitted pops the
identified entry and leaves the anonymous one — the claim predicts the
reverse (anonymous LIFO, identified entries untouched). -/
theorem keyUp_anonymous_pops_identified_cex :
    Piano.keyUp (Piano.keyDown (Piano.keyDown [] 60 0 none) 60 1 (some 5)) 60 none
      = [(60, [⟨0, 60, none⟩])] ∧
    ¬ (mapLookup
        (Piano.keyUp (Piano.keyDown (Piano.keyDown [] 60 0 none) 60 1 (some 5)) 60 none) 60
       = some [⟨1, 60, some 5⟩]) := by
  decide

/-- C4 (amended): for a valid note whose entry list is present, `keyUp` with
the identifier omitted deletes the note's key when exactly one entry (of any
kind) is held, and otherwise pops the most recently added entry — regardless
of whether that entry carries an identifier. -/
theorem keyUp_anonymous_pops_last (s : PianoState) (midi : ℤ) (l : List ActiveKey)
    (h1 : 21 ≤ midi) (h2 : midi ≤ 108) (hl : mapLookup s midi = some l) :
    Piano.keyUp s midi none =
      if l.length = 1 then mapDelete s midi else mapSet s midi l.dropLast := by
  have hv : isValidMidi midi = true := by
    unfold isValidMidi
    rw [if_neg]
    push_neg
    omega
  unfold Piano.keyUp
  rw [hv, hl]
  simp

/-- C4 witness: two entries held on note 60 — the second, identified one is
popped. -/
theorem keyUp_anonymous_pops_last_witness :
    Piano.keyUp [(60, [⟨0, 60, none⟩, ⟨1, 60, some 5⟩])] 60 none =
      if ([⟨0, 60, none⟩, ⟨1, 60, some 5⟩] : List ActiveKey).length = 1
      then mapDelete [(60, [⟨0, 60, none⟩, ⟨1, 60, some 5⟩])] 60
      else mapSet [(60, [⟨0, 60, none⟩, ⟨1, 60, some 5⟩])] 60
        ([⟨0, 60, none⟩, ⟨1, 60, some 5⟩] : List ActiveKey).dropLast :=
  keyUp_anonymous_pops_last [(60, [⟨0, 60, none⟩, ⟨1, 60, some 5⟩])] 60
    [⟨0, 60, none⟩, ⟨1, 60, some 5⟩] (by decide) (by decide) (by decide)

/-! ### C5: out-of-range notes -/

/-- C5 counterexample: `startNote(109)` leaves the active-key tracker alone
but adds a block to the note-roll store — the claim's "no state change
anywhere" is false. -/
theorem startNote_invalid_changes_roll_cex :
    (Visualization.startNote ⟨[], []⟩ 109 0 none).piano = [] ∧
    (Visualization.startNote ⟨[], []⟩ 109 0 none).roll
      = [(109, [⟨true, 0, 0, 109, 0, none⟩])] := by
  constructor
  · simp [Visualization.startNote, Piano.keyDown, isValidMidi]
  · simp [Visualization.startNote, PianoRoll.startNote, PianoRoll.mkBlock,
      mapLookup, mapSet]

/-- C5 (amended): a note outside [21, 108] never changes the active-key
tracker (`keyDown`/`keyUp` reject it with a warning), but
`PianoRoll.startNote` performs no validation and appends a block for it to
the note-roll store. -/
theorem invalid_note_state_effects (s : VizState) (midi : ℤ) (color : ℕ)
    (id : Option ℕ) (h : midi < 21 ∨ 108 < midi) :
    (Visualization.startNote s midi color id).piano = s.piano ∧
    (Visualization.endNote s midi id).piano = s.piano ∧
    mapLookup (Visualization.startNote s midi color id).roll midi
      = some ((mapLookup s.roll midi).getD [] ++ [PianoRoll.mkBlock midi color id]) := by
  have hv : isValidMidi midi = false := by
    unfold isValidMidi
    rw [if_pos]
    omega
  refine ⟨?_, ?_, ?_⟩
  · simp [Visualization.startNote, Piano.keyDown, hv]
  · simp [Visualization.endNote, Piano.keyUp, hv]
  · simp [Visualization.startNote, PianoRoll.startNote, mapLookup_mapSet_self]

/-- C5 witness: note 109 on empty stores. -/
theorem invalid_note_state_effects_witness :
    (Visualization.startNote ⟨[], []⟩ 109 7 none).piano = ([] : PianoState) ∧
    (Visualization.endNote ⟨[], []⟩ 109 none).piano = ([] : PianoState) ∧
    mapLookup (Visualization.startNote ⟨[], []⟩ 109 7 none).roll 109
      = some ((mapLookup ([] : RollState) 109).getD [] ++ [PianoRoll.mkBlock 109 7 none]) :=
  invalid_note_state_effects ⟨[], []⟩ 109 7 none (by omega)

/-! ### C9: the glide across keys -/

/-- C9: while the mouse stream (button down) or a touch contact holds note
`m`, entering a different key `mNew` emits exactly one key-up(m) followed by
exactly one key-down(mNew) inside the one handler call — so no frame
observes both notes down or both up — after which that stream holds `mNew`;
each conclusion is a full state-and-event equality. -/
theorem controller_glide (st : PCState) (pid m mNew : ℤ)
    (hdown : st.isMouseDown = true) (hheld : st.mouseMidi = some m)
    (htouch : mapLookup st.touchMidiById pid = some m) (hne : m ≠ mNew) :
    PianoController.mouseEnter st mNew
      = ({ st with mouseMidi := some mNew }, [KeyEvent.up m, KeyEvent.down mNew]) ∧
    PianoController.touchMove st pid mNew
      = ({ st with touchMidiById := mapSet st.touchMidiById pid mNew },
         [KeyEvent.up m, KeyEvent.down mNew]) ∧
    mapLookup (PianoController.touchMove st pid mNew).1.touchMidiById pid = some mNew := by
  have hmouse : PianoController.mouseEnter st mNew
      = ({ st with mouseMidi := some mNew }, [KeyEvent.up m, KeyEvent.down mNew]) := by
    unfold PianoController.mouseEnter
    rw [if_neg, hheld]
    · simp
    · simp [hdown, hheld]
      exact hne
  have htm : PianoController.touchMove st pid mNew
      = ({ st with touchMidiById := mapSet st.touchMidiById pid mNew },
         [KeyEvent.up m, KeyEvent.down mNew]) := by
    unfold PianoController.touchMove
    rw [htouch, if_neg]
    · simp
    · simp
      exact hne
  refine ⟨hmouse, htm, ?_⟩
  rw [htm]
  exact mapLookup_mapSet_self st.touchMidiById pid mNew

/-- C9 witness: the mouse and touch contact 1 hold note 60 and glide into
note 61. -/
theorem controller_glide_witness :
    PianoController.mouseEnter ⟨true, some 60, [(1, 60)]⟩ 61
      = ({ isMouseDown := true, mouseMidi := some 61, touchMidiById := [(1, 60)] },
         [KeyEvent.up 60, KeyEvent.down 61]) ∧
    PianoController.touchMove ⟨true, some 60, [(1, 60)]⟩ 1 61
      = ({ isMouseDown := true, mouseMidi := some 60,
           touchMidiById := mapSet [(1, 60)] 1 61 },
         [KeyEvent.up 60, KeyEvent.down 61]) ∧
    mapLookup (PianoController.touchMove ⟨true, some 60, [(1, 60)]⟩ 1 61).1.touchMidiById 1
      = some 61 :=
  controller_glide ⟨true, some 60, [(1, 60)]⟩ 1 60 61 rfl rfl (by decide) (by decide)

/-! ### C10: setPosition forces the position but not the target -/

/-- C10: `setPosition(x)` sets `current := x`, notifies with `x`, and leaves
`target` untouched; hence when the target differs from `x`, the next tick
notifies again and moves `current` off `x` in the direction of the old
target (the sign of the move matches the sign of `target − x`) instead of
holding the forced position. -/
theorem setPosition_keeps_target (cfg : EasingConfig) (s : AnimX) (x dt : ℝ) :
    (GestureAnimator.setPosition s x).1.current = x ∧
    (GestureAnimator.setPosition s x).1.target = s.target ∧
    (GestureAnimator.setPosition s x).2 = some x ∧
    (s.target ≠ x →
      (GestureAnimator.animate cfg (GestureAnimator.setPosition s x).1 dt).2 ≠ none ∧
      (GestureAnimator.animate cfg (GestureAnimator.setPosition s x).1 dt).1.current ≠ x ∧
      0 < ((GestureAnimator.animate cfg (GestureAnimator.setPosition s x).1 dt).1.current - x)
            * (s.target - x)) := by
  refine ⟨rfl, rfl, rfl, ?_⟩
  intro hne
  have hΔ : s.target - x ≠ 0 := sub_ne_zero.mpr hne
  unfold GestureAnimator.animate GestureAnimator.setPosition
  dsimp only
  rw [if_neg hΔ]
  by_cases habs : |s.target - x| ≤ 1
  · rw [if_pos habs]
    refine ⟨by simp, ?_, ?_⟩
    · simpa using hne
    · simpa using mul_self_pos.mpr hΔ
  · rw [if_neg habs]
    push_neg at habs
    have hstep : 1 ≤ GestureAnimator.getEasingStep cfg (s.target - x) dt :=
      le_max_right _ _
    have hstep0 : 0 < GestureAnimator.getEasingStep cfg (s.target - x) dt :=
      lt_of_lt_of_le one_pos hstep
    rcases lt_or_le x s.target with hlt | hle
    · have h1 : s.target - x ≥ 1 := by
        rw [abs_of_pos (sub_pos.mpr hlt)] at habs
        linarith
      rw [if_pos h1]
      dsimp only
      refine ⟨by simp, ?_, ?_⟩
      · intro hcontra
        simp only [add_right_eq_self] at hcontra
        exact hstep0.ne' hcontra
      · have hx : x + GestureAnimator.getEasingStep cfg (s.target - x) dt - x
            = GestureAnimator.getEasingStep cfg (s.target - x) dt := by ring
        simp only [hx]
        exact mul_pos hstep0 (sub_pos.mpr hlt)
    · have hlt' : s.target < x := lt_of_le_of_ne hle hne
      have h1 : ¬ (s.target - x ≥ 1) := by linarith
      have h2 : s.target - x ≤ -1 := by
        rw [abs_of_neg (sub_neg.mpr hlt')] at habs
        linarith
      rw [if_neg h1, if_pos h2]
      dsimp only
      refine ⟨by simp, ?_, ?_⟩
      · intro hcontra
        simp only [sub_eq_self] at hcontra
        exact hstep0.ne' hcontra
      · have hx : x - GestureAnimator.getEasingStep cfg (s.target - x) dt - x
            = -GestureAnimator.getEasingStep cfg (s.target - x) dt := by ring
        simp only [hx]
        rw [neg_mul, neg_pos]
        exact mul_neg_of_pos_of_neg hstep0 (sub_neg.mpr hlt')

/-- C10 witness: from a forced position 100 with old target 300, one tick
notifies and moves toward 300. -/
theorem setPosition_keeps_target_witness :
    (GestureAnimator.setPosition ⟨0, 300⟩ 100).1.current = 100 ∧
    (GestureAnimator.setPosition ⟨0, 300⟩ 100).1.target = (⟨0, 300⟩ : AnimX).target ∧
    (GestureAnimator.setPosition ⟨0, 300⟩ 100).2 = some 100 ∧
    ((⟨0, 300⟩ : AnimX).target ≠ 100 →
      (GestureAnimator.animate defaultEasing (GestureAnimator.setPosition ⟨0, 300⟩ 100).1 16).2 ≠ none ∧
      (GestureAnimator.animate defaultEasing (GestureAnimator.setPosition ⟨0, 300⟩ 100).1 16).1.current ≠ 100 ∧
      0 < ((GestureAnimator.animate defaultEasing (GestureAnimator.setPosition ⟨0, 300⟩ 100).1 16).1.current - 100)
            * ((⟨0, 300⟩ : AnimX).target - 100)) :=
  setPosition_keeps_target defaultEasing ⟨0, 300⟩ 100 16

/-! ### C7: the tick transition -/

/-- C7: the tick trichotomy of `animate` — a strict no-op (no notification)
at the target; snap-and-notify within one pixel; otherwise a move toward the
target by exactly `max(deltaMS * |target − current| ^ p / d, 1)` with a
notification — together with the spec's fixed-point instance at the default
easing (p = 3/2, d = 600): from current 0, target 600, a 16.67 ms tick lands
on `max(16.67 * 600^1.5 / 600, 1)`. -/
theorem animator_tick_trichotomy :
    (∀ (cfg : EasingConfig) (s : AnimX) (dt : ℝ),
      (s.target = s.current → GestureAnimator.animate cfg s dt = (s, none)) ∧
      (s.target ≠ s.current → |s.target - s.current| ≤ 1 →
        GestureAnimator.animate cfg s dt = ({ s with current := s.target }, some s.target)) ∧
      (1 < |s.target - s.current| →
        GestureAnimator.animate cfg s dt =
          (let step := max (dt * |s.target - s.current| ^ cfg.deltaPowtValue / cfg.deltaDivisor) 1
           let c := if s.current < s.target then s.current + step else s.current - step
           ({ s with current := c }, some c)))) ∧
    (GestureAnimator.animate defaultEasing ⟨0, 600⟩ (1667/100)).1.current
      = max ((1667/100) * (600 : ℝ) ^ ((3 : ℝ)/2) / 600) 1 := by
  have main : ∀ (cfg : EasingConfig) (s : AnimX) (dt : ℝ),
      (s.target = s.current → GestureAnimator.animate cfg s dt = (s, none)) ∧
      (s.target ≠ s.current → |s.target - s.current| ≤ 1 →
        GestureAnimator.animate cfg s dt = ({ s with current := s.target }, some s.target)) ∧
      (1 < |s.target - s.current| →
        GestureAnimator.animate cfg s dt =
          (let step := max (dt * |s.target - s.current| ^ cfg.deltaPowtValue / cfg.deltaDivisor) 1
           let c := if s.current < s.target then s.current + step else s.current - step
           ({ s with current := c }, some c))) := by
    intro cfg s dt
    refine ⟨?_, ?_, ?_⟩
    · intro heq
      unfold GestureAnimator.animate
      rw [if_pos (sub_eq_zero.mpr heq)]
    · intro hne habs
      unfold GestureAnimator.animate
      rw [if_neg (sub_ne_zero.mpr hne), if_pos habs]
    · intro habs
      have hne0 : s.target - s.current ≠ 0 := by
        intro h0
        rw [h0] at habs
        simp at habs
        linarith
      unfold GestureAnimator.animate GestureAnimator.getEasingStep
      rw [if_neg hne0, if_neg (not_le.mpr habs)]
      dsimp only
      rcases lt_or_le s.current s.target with hlt | hle
      · have h1 : s.target - s.current ≥ 1 := by
          rw [abs_of_pos (sub_pos.mpr hlt)] at habs
          linarith
        rw [if_pos h1, if_pos hlt]
      · have hlt' : s.target < s.current :=
          lt_of_le_of_ne hle fun h => hne0 (by rw [h]; ring)
        have h1 : ¬ (s.target - s.current ≥ 1) := by linarith
        have h2 : s.target - s.current ≤ -1 := by
          rw [abs_of_neg (sub_neg.mpr hlt')] at habs
          linarith
        rw [if_neg h1, if_pos h2, if_neg (not_lt.mpr hle)]
  refine ⟨main, ?_⟩
  have inst := (main defaultEasing ⟨0, 600⟩ (1667/100)).2.2
  have habs : |(600 : ℝ) - 0| = 600 := by norm_num
  have h1 : (1 : ℝ) < |(600 : ℝ) - 0| := by rw [habs]; norm_num
  have := inst h1
  rw [show ((⟨0, 600⟩ : AnimX).target - (⟨0, 600⟩ : AnimX).current) = (600 : ℝ) - 0 from rfl] at this
  rw [this]
  dsimp only [defaultEasing]
  rw [habs]
  rw [if_pos (by norm_num : (0 : ℝ) < 600)]
  norm_num

/-! ### C6: the zoom clamp -/

theorem setWidthFactor_widthFactor (s : Layout) (z : ℚ) :
    (s.setWidthFactor z).widthFactor = s.getClampedWidthFactor z := by
  unfold Layout.setWidthFactor
  dsimp only
  split_ifs with h
  · exact h.symm
  · simp [Layout.setX]

theorem clamped_keys_window (s : Layout) (z : ℚ) (hw : 0 < s.width) :
    5 ≤ s.width / (NATURAL_KEY_WIDTH * s.getClampedWidthFactor z) ∧
    s.width / (NATURAL_KEY_WIDTH * s.getClampedWidthFactor z) ≤ 52 := by
  unfold Layout.getClampedWidthFactor
  dsimp only
  set ck := max 5 (min 52 (s.width / NATURAL_KEY_WIDTH / z)) with hckdef
  have hck5 : (5 : ℚ) ≤ ck := le_max_left _ _
  have hck52 : ck ≤ 52 := max_le (by norm_num) (min_le_left _ _)
  have hck0 : ck ≠ 0 := by positivity
  have hw0 : s.width ≠ 0 := hw.ne'
  have hkey : s.width / (NATURAL_KEY_WIDTH * (s.width / NATURAL_KEY_WIDTH / ck)) = ck := by
    unfold NATURAL_KEY_WIDTH
    field_simp
    ring
  rw [hkey]
  exact ⟨hck5, hck52⟩

/-- C6: for a positive viewport width, `setWidthFactor(z)` for ANY rational
input `z` — zero and negative included — leaves a width factor whose derived
visible-keys count `width / (naturalKeyWidth * widthFactor)` lies in
[5, 52]. (In the source, `z = 0` makes the intermediate `screenKeys / z`
+Infinity where this model yields 0; the min/max clamp sends both into
[5, 52], so the conclusion is the same.) -/
theorem setWidthFactor_zoom_clamp (s : Layout) (z : ℚ) (hw : 0 < s.width) :
    5 ≤ s.width / (NATURAL_KEY_WIDTH * (s.setWidthFactor z).widthFactor) ∧
    s.width / (NATURAL_KEY_WIDTH * (s.setWidthFactor z).widthFactor) ≤ 52 := by
  rw [setWidthFactor_widthFactor]
  exact clamped_keys_window s z hw

/-- C6 witness: the demo layout with the extreme input `z = 0`. -/
theorem setWidthFactor_zoom_clamp_witness :
    5 ≤ demoLayout.width / (NATURAL_KEY_WIDTH * (demoLayout.setWidthFactor 0).widthFactor) ∧
    demoLayout.width / (NATURAL_KEY_WIDTH * (demoLayout.setWidthFactor 0).widthFactor) ≤ 52 :=
  setWidthFactor_zoom_clamp demoLayout 0 (by rw [demoLayout_eq]; norm_num)

/-! ### C3: gesture completion quantizes zoom before pan -/

theorem quantized_width_factor_fixed (s : Layout) (hw : 0 < s.width)
    (h5 : 5 ≤ s.width / (NATURAL_KEY_WIDTH * s.widthFactor))
    (h52 : s.width / (NATURAL_KEY_WIDTH * s.widthFactor) ≤ 52) :
    s.getClampedWidthFactor (s.getQuantizedWidthFactor s.widthFactor)
      = s.getQuantizedWidthFactor s.widthFactor := by
  have hw0 : s.width ≠ 0 := hw.ne'
  set k := s.width / (NATURAL_KEY_WIDTH * s.widthFactor) with hk
  set q := jsRound k with hqdef
  have hq5 : (5 : ℤ) ≤ q := by
    rw [hqdef]
    unfold jsRound
    rw [Int.le_floor]
    push_cast
    linarith
  have hq52 : q ≤ 52 := by
    rw [hqdef]
    unfold jsRound
    have : ⌊k + 1/2⌋ < 53 := by
      rw [Int.floor_lt]
      push_cast
      linarith
    omega
  have hq5Q : (5 : ℚ) ≤ (q : ℚ) := by exact_mod_cast hq5
  have hq52Q : ((q : ℚ)) ≤ 52 := by exact_mod_cast hq52
  have hq0 : ((q : ℚ)) ≠ 0 := by positivity
  have hqwf : s.getQuantizedWidthFactor s.widthFactor
      = s.width / (NATURAL_KEY_WIDTH * (q : ℚ)) := by
    unfold Layout.getQuantizedWidthFactor
    dsimp only
  rw [hqwf]
  unfold Layout.getClampedWidthFactor
  dsimp only
  have hvk : s.width / NATURAL_KEY_WIDTH / (s.width / (NATURAL_KEY_WIDTH * (q : ℚ)))
      = (q : ℚ) := by
    unfold NATURAL_KEY_WIDTH
    field_simp
    ring
  rw [hvk, min_eq_right hq52Q, max_eq_right hq5Q]
  rw [div_div]

/-- C3: for a layout whose derived visible-keys count is inside [5, 52] (any
state every gesture path can reach) with a positive width, `completeGesture`
first installs the quantized width factor in the layout, emits it as the
zoom target, and the pan target it emits is the pan quantized against that
NEW quantized width factor's key width — not the stale pre-quantization
one. -/
theorem completeGesture_zoom_then_pan (s : Layout) (hw : 0 < s.width)
    (h5 : 5 ≤ s.width / (NATURAL_KEY_WIDTH * s.widthFactor))
    (h52 : s.width / (NATURAL_KEY_WIDTH * s.widthFactor) ≤ 52) :
    (completeGesture s none).1.widthFactor = s.getQuantizedWidthFactor s.widthFactor ∧
    (completeGesture s none).2.widthFactorTarget = s.getQuantizedWidthFactor s.widthFactor ∧
    (completeGesture s none).2.containerTargetX
      = (jsRound ((completeGesture s none).1.x
            / (NATURAL_KEY_WIDTH * s.getQuantizedWidthFactor s.widthFactor)) : ℚ)
          * (NATURAL_KEY_WIDTH * s.getQuantizedWidthFactor s.widthFactor) := by
  have hfix := quantized_width_factor_fixed s hw h5 h52
  have hwf1 : (completeGesture s none).1.widthFactor
      = s.getQuantizedWidthFactor s.widthFactor := by
    unfold completeGesture
    dsimp only
    split_ifs with hne
    · rw [setWidthFactor_widthFactor, hfix]
    · push_neg at hne
      exact hne.symm
  refine ⟨hwf1, rfl, ?_⟩
  show (completeGesture s none).1.getQuantizedX ((Option.none).getD (completeGesture s none).1.x) = _
  unfold Layout.getQuantizedX
  rw [Option.getD_none, hwf1]

/-- C3 witness: the demo layout (16 visible keys, width 1200). -/
theorem completeGesture_zoom_then_pan_witness :
    (completeGesture demoLayout none).1.widthFactor
      = demoLayout.getQuantizedWidthFactor demoLayout.widthFactor ∧
    (completeGesture demoLayout none).2.widthFactorTarget
      = demoLayout.getQuantizedWidthFactor demoLayout.widthFactor ∧
    (completeGesture demoLayout none).2.containerTargetX
      = (jsRound ((completeGesture demoLayout none).1.x
            / (NATURAL_KEY_WIDTH * demoLayout.getQuantizedWidthFactor demoLayout.widthFactor)) : ℚ)
          * (NATURAL_KEY_WIDTH * demoLayout.getQuantizedWidthFactor demoLayout.widthFactor) :=
  completeGesture_zoom_then_pan demoLayout
    (by rw [demoLayout_eq]; norm_num)
    (by rw [demoLayout_eq]; norm_num [NATURAL_KEY_WIDTH])
    (by rw [demoLayout_eq]; norm_num [NATURAL_KEY_WIDTH])

/-! ### C8: the centre-note round trip -/

theorem noteX_lt_succ (m : ℤ) : noteX m < noteX (m + 1) := by
  unfold noteX Pitch.ofMidi
  dsimp only
  rw [Int.fdiv_eq_ediv _ (by norm_num), Int.fdiv_eq_ediv _ (by norm_num)]
  have h0 : 0 ≤ m % 12 := Int.emod_nonneg m (by norm_num)
  have h12 : m % 12 < 12 := Int.emod_lt_of_pos m (by norm_num)
  by_cases h11 : m % 12 = 11
  · have e1 : (m + 1) % 12 = 0 := by omega
    have e2 : (m + 1) / 12 = m / 12 + 1 := by omega
    rw [h11, e1, e2]
    have c11 : chromaX 11 = 600 := by
      simp [chromaX, chromaXPositions, List.getD]
    have c0 : chromaX 0 = 0 := by
      simp [chromaX, chromaXPositions, List.getD]
    rw [c11, c0]
    unfold OCTAVE_WIDTH NATURAL_KEY_WIDTH
    push_cast
    linarith
  · have e1 : (m + 1) % 12 = m % 12 + 1 := by omega
    have e2 : (m + 1) / 12 = m / 12 := by omega
    rw [e1, e2]
    have hchroma : chromaX (m % 12) < chromaX (m % 12 + 1) := by
      have hb : m % 12 ≤ 10 := by omega
      set c := m % 12 with hc
      interval_cases c <;> simp [chromaX, chromaXPositions, List.getD] <;> norm_num
    linarith

theorem noteX_strictMono : StrictMono noteX :=
  strictMono_int_of_lt_succ noteX_lt_succ

theorem foldl_scanStep_zero (off : ℚ) (b : ℤ) (l : List ℤ) :
    l.foldl (Layout.scanStep off) (b, some 0) = (b, some 0) := by
  induction l with
  | nil => rfl
  | cons x xs ih =>
    rw [List.foldl_cons]
    have hstep : Layout.scanStep off (b, some 0) x = (b, some 0) := by
      unfold Layout.scanStep
      dsimp only
      rw [if_neg (not_lt.mpr (jsAbs_nonneg _))]
    rw [hstep, ih]

/-- The state invariant of the nearest-note scan before the exact match is
reached: either no distance has been recorded yet, or the best distance so
far is positive. -/
def scanInvariant (st : ℤ × Option ℚ) : Prop :=
  st.2 = none ∨ ∃ d, st.2 = some d ∧ 0 < d

theorem foldl_scanStep_pos (off : ℚ) (l : List ℤ)
    (hl : ∀ x ∈ l, 0 < jsAbs (noteX x - off)) :
    ∀ st : ℤ × Option ℚ, scanInvariant st →
      scanInvariant (l.foldl (Layout.scanStep off) st) := by
  induction l with
  | nil => intro st hst; simpa using hst
  | cons x xs ih =>
    intro st hst
    rw [List.foldl_cons]
    apply ih (fun y hy => hl y (List.mem_cons_of_mem _ hy))
    have hx := hl x (List.mem_cons_self x xs)
    obtain ⟨b, o⟩ := st
    unfold Layout.scanStep
    rcases hst with hnone | ⟨d, hd, hdpos⟩
    · simp only at hnone
      subst hnone
      exact Or.inr ⟨_, rfl, hx⟩
    · simp only at hd
      subst hd
      dsimp only
      split_ifs with hcmp
      · exact Or.inr ⟨_, rfl, hx⟩
      · exact Or.inr ⟨d, rfl, hdpos⟩

theorem foldl_scanStep_finds (off : ℚ) (n : ℤ) (l1 l2 : List ℤ)
    (h1 : ∀ x ∈ l1, 0 < jsAbs (noteX x - off)) (hn : jsAbs (noteX n - off) = 0)
    (st : ℤ × Option ℚ) (hst : scanInvariant st) :
    (l1 ++ n :: l2).foldl (Layout.scanStep off) st = (n, some 0) := by
  rw [List.foldl_append, List.foldl_cons]
  have hmid := foldl_scanStep_pos off l1 h1 st hst
  set st1 := l1.foldl (Layout.scanStep off) st with hst1
  have hstep : Layout.scanStep off st1 n = (n, some 0) := by
    obtain ⟨b, o⟩ := st1
    unfold Layout.scanStep
    rcases hmid with hnone | ⟨d, hd, hdpos⟩
    · simp only at hnone
      subst hnone
      dsimp only
      rw [hn]
    · simp only at hd
      subst hd
      dsimp only
      rw [hn, if_pos hdpos]
  rw [hstep, foldl_scanStep_zero]

theorem scanClosest_noteX (n : ℤ) (h1 : 21 ≤ n) (h2 : n ≤ 108) :
    Layout.scanClosest (noteX n) = n := by
  unfold Layout.scanClosest
  have hmem : n ∈ (List.range 88).map (fun k : ℕ => 21 + (k : ℤ)) := by
    rw [List.mem_map]
    refine ⟨(n - 21).toNat, ?_, ?_⟩
    · rw [List.mem_range]; omega
    · omega
  obtain ⟨s, t, hL⟩ := List.append_of_mem hmem
  have hpair : ((List.range 88).map (fun k : ℕ => 21 + (k : ℤ))).Pairwise (· < ·) := by
    rw [List.pairwise_map]
    exact (List.pairwise_lt_range 88).imp (fun h => by omega)
  rw [hL] at hpair
  have hs : ∀ x ∈ s, x < n := by
    intro x hx
    exact (List.pairwise_append.mp hpair).2.2 x hx n (List.mem_cons_self n t)
  rw [hL, foldl_scanStep_finds]
  · intro x hx
    apply jsAbs_pos
    have := noteX_strictMono (hs x hx)
    exact sub_ne_zero.mpr this.ne
  · rw [sub_self]
    norm_num [jsAbs]
  · exact Or.inl rfl

/-- C8: for every note in [21, 108] and a positive width factor, converting
the note to the pan offset that centers it and back through the
nearest-match scan recovers the note exactly — in particular within the 1
semitone tolerance the spec allows. -/
theorem roundTrip_centerMidi (s : Layout) (n : ℤ) (h1 : 21 ≤ n) (h2 : n ≤ 108)
    (hwf : 0 < s.widthFactor) :
    Layout.xToCenterMidi s (Layout.centerMidiToX s n) = n ∧
    |Layout.xToCenterMidi s (Layout.centerMidiToX s n) - n| ≤ 1 := by
  have heq : Layout.xToCenterMidi s (Layout.centerMidiToX s n) = n := by
    unfold Layout.xToCenterMidi Layout.centerMidiToX
    dsimp only
    have hwf0 : s.widthFactor ≠ 0 := hwf.ne'
    have hsimp :
        ((noteX n - DEFAULT_X_OFFSET) * s.widthFactor - s.width / 2 + s.width / 2)
            / s.widthFactor + DEFAULT_X_OFFSET = noteX n := by
      field_simp
    rw [hsimp]
    exact scanClosest_noteX n h1 h2
  refine ⟨heq, ?_⟩
  rw [heq]
  simp

/-- C8 witness: note 60 on the demo layout. -/
theorem roundTrip_centerMidi_witness :
    Layout.xToCenterMidi demoLayout (Layout.centerMidiToX demoLayout 60) = 60 ∧
    |Layout.xToCenterMidi demoLayout (Layout.centerMidiToX demoLayout 60) - 60| ≤ 1 :=
  roundTrip_centerMidi demoLayout 60 (by norm_num) (by norm_num)
    (by rw [demoLayout_eq]; norm_num)

end PV
